import Mathlib

/-!
Shallow embedding of the inventory-history pipeline
(src/scripts/build_app_ready.py) and verification of the frozen claims.

Modelling conventions:
- Python `str` is modelled as Lean `String` (a wrapper around `List Char`);
  the ASCII-relevant behaviour of `str.strip` / `str.upper` / `str.lower`
  is modelled exactly, Unicode case folding beyond ASCII is out of scope.
- Python `float` is modelled as `ℚ`.  All numeric values this program
  manipulates arise from parsing decimal strings, so the model is exact up
  to IEEE-754 representation error; `round(x, 2)` is modelled as exact
  round-half-to-even at two decimals.
- CSV rows are association lists from header name to cell string, the
  first-seen state is an association list from key to timestamp string.
-/

namespace InvHist

/-! ## Python string primitives -/

/-- Whitespace test used by Python str.strip (ASCII subset). -/
def pyIsSpace (c : Char) : Bool :=
  c.toNat == 32 || c.toNat == 9 || c.toNat == 10 ||
  c.toNat == 13 || c.toNat == 11 || c.toNat == 12

/-- List-level strip of leading and trailing whitespace. -/
def stripList (l : List Char) : List Char :=
  ((l.dropWhile pyIsSpace).reverse.dropWhile pyIsSpace).reverse

/-- Python str.strip. -/
def pyStrip (s : String) : String := ⟨stripList s.data⟩

/-- Python str.upper on one character (ASCII). -/
def pyToUpper (c : Char) : Char :=
  if 97 ≤ c.toNat ∧ c.toNat ≤ 122 then Char.ofNat (c.toNat - 32) else c

/-- Python str.lower on one character (ASCII). -/
def pyToLower (c : Char) : Char :=
  if 65 ≤ c.toNat ∧ c.toNat ≤ 90 then Char.ofNat (c.toNat + 32) else c

/-- Python str.upper. -/
def pyUpper (s : String) : String := ⟨s.data.map pyToUpper⟩

/-- Python str.lower. -/
def pyLower (s : String) : String := ⟨s.data.map pyToLower⟩

theorem charOfNat_toNat {n : Nat} (h1 : 65 ≤ n) (h2 : n ≤ 90) :
    (Char.ofNat n).toNat = n := by
  interval_cases n <;> decide

theorem pyToUpper_toNat_of_lower {c : Char} (h : 97 ≤ c.toNat ∧ c.toNat ≤ 122) :
    (pyToUpper c).toNat = c.toNat - 32 := by
  unfold pyToUpper
  rw [if_pos h]
  exact charOfNat_toNat (by omega) (by omega)

theorem pyToUpper_of_not_lower {c : Char} (h : ¬(97 ≤ c.toNat ∧ c.toNat ≤ 122)) :
    pyToUpper c = c := by
  unfold pyToUpper
  rw [if_neg h]

theorem pyToUpper_idem (c : Char) : pyToUpper (pyToUpper c) = pyToUpper c := by
  by_cases h : 97 ≤ c.toNat ∧ c.toNat ≤ 122
  · have ht : (pyToUpper c).toNat = c.toNat - 32 := pyToUpper_toNat_of_lower h
    exact pyToUpper_of_not_lower (by omega)
  · rw [pyToUpper_of_not_lower h, pyToUpper_of_not_lower h]

theorem pyIsSpace_pyToUpper (c : Char) : pyIsSpace (pyToUpper c) = pyIsSpace c := by
  by_cases h : 97 ≤ c.toNat ∧ c.toNat ≤ 122
  · have ht : (pyToUpper c).toNat = c.toNat - 32 := pyToUpper_toNat_of_lower h
    unfold pyIsSpace
    rw [ht]
    have e1 : ∀ m, 65 ≤ m →
        (m == 32 || m == 9 || m == 10 || m == 13 || m == 11 || m == 12) = false := by
      intro m hm
      simp only [Bool.or_eq_false_iff, beq_eq_false_iff_ne, ne_eq]
      omega
    rw [e1 _ (by omega), e1 _ (by omega)]
  · rw [pyToUpper_of_not_lower h]

theorem dropWhile_head_false (p : Char → Bool) (l : List Char) :
    ∀ c ∈ (l.dropWhile p).head?, p c = false := by
  induction l with
  | nil => simp
  | cons a t ih =>
    by_cases h : p a
    · simpa [List.dropWhile_cons, h] using ih
    · simp [List.dropWhile_cons, h]

theorem dropWhile_of_head_false (p : Char → Bool) (l : List Char)
    (h : ∀ c ∈ l.head?, p c = false) : l.dropWhile p = l := by
  cases l with
  | nil => rfl
  | cons a t =>
    have : p a = false := h a (by simp)
    simp [List.dropWhile_cons, this]

theorem dropWhile_idem (p : Char → Bool) (l : List Char) :
    (l.dropWhile p).dropWhile p = l.dropWhile p :=
  dropWhile_of_head_false p _ (dropWhile_head_false p l)

theorem head_false_of_prefix (p : Char → Bool) {l₁ l₂ : List Char}
    (hpre : l₁ <+: l₂) (h : ∀ c ∈ l₂.head?, p c = false) :
    ∀ c ∈ l₁.head?, p c = false := by
  intro c hc
  obtain ⟨t, ht⟩ := hpre
  apply h
  rw [← ht]
  cases l₁ with
  | nil => simp at hc
  | cons a t' => simpa using hc

theorem stripList_idem (l : List Char) : stripList (stripList l) = stripList l := by
  unfold stripList
  set A := l.dropWhile pyIsSpace with hA
  set R := A.reverse.dropWhile pyIsSpace with hR
  have hAhead : ∀ c ∈ A.head?, pyIsSpace c = false := dropWhile_head_false pyIsSpace l
  have hRrevPre : R.reverse <+: A := by
    have hsuf : R <:+ A.reverse := List.dropWhile_suffix pyIsSpace
    have := List.reverse_prefix.mpr hsuf
    simpa using this
  have hRrevHead : ∀ c ∈ R.reverse.head?, pyIsSpace c = false :=
    head_false_of_prefix pyIsSpace hRrevPre hAhead
  have h1 : R.reverse.dropWhile pyIsSpace = R.reverse :=
    dropWhile_of_head_false pyIsSpace _ hRrevHead
  rw [h1, List.reverse_reverse, dropWhile_idem]

theorem stripList_map_comm (l : List Char) :
    stripList (l.map pyToUpper) = (stripList l).map pyToUpper := by
  unfold stripList
  have hcomp : (pyIsSpace ∘ pyToUpper) = pyIsSpace := by
    funext c
    exact pyIsSpace_pyToUpper c
  rw [List.dropWhile_map, hcomp, ← List.map_reverse, List.dropWhile_map, hcomp,
    ← List.map_reverse]

theorem map_pyToUpper_idem (l : List Char) :
    (l.map pyToUpper).map pyToUpper = l.map pyToUpper := by
  rw [List.map_map]
  exact List.map_congr_left (fun a _ => pyToUpper_idem a)

theorem upperStrip_idem (s : String) :
    pyUpper (pyStrip (pyUpper (pyStrip s))) = pyUpper (pyStrip s) := by
  unfold pyUpper pyStrip
  apply congrArg
  show (stripList ((stripList s.data).map pyToUpper)).map pyToUpper
      = (stripList s.data).map pyToUpper
  rw [stripList_map_comm, stripList_idem, map_pyToUpper_idem]

/-! ## Rows and the field resolver (source: build_app_ready.py) -/

/-- One CSV row as produced by csv.DictReader: header name to raw cell value. -/
abbrev Row := List (String × String)

/-- Python row.get(n) for a DictReader row. -/
def rowGet : Row → String → Option String
  | [], _ => none
  | (k, v) :: rest, n => if k = n then some v else rowGet rest n

/-- Source function pick: the first candidate field whose value is present
and non-blank after stripping; empty string when none matches. -/
def pick (row : Row) : List String → String
  | [] => ""
  | n :: rest =>
    match rowGet row n with
    | none => pick row rest
    | some v =>
      let s := pyStrip v
      if s = "" then pick row rest else s

/-! ## Numeric coercion -/

/-- Value of a list of decimal digit characters. -/
def digitsToNat (l : List Char) : Nat :=
  l.foldl (fun a c => a * 10 + (c.toNat - 48)) 0

/-- Python float(...) on a string of digits with at most one dot
(the shape left over after the regex strip, minus a leading minus). -/
def parseUnsigned (l : List Char) : Option ℚ :=
  let intPart := l.takeWhile (·.isDigit)
  let rest := l.dropWhile (·.isDigit)
  match rest with
  | [] => if intPart = [] then none else some (digitsToNat intPart : ℚ)
  | '.' :: frac =>
    if frac.all (·.isDigit) then
      if intPart = [] ∧ frac = [] then none
      else some ((digitsToNat intPart : ℚ) + (digitsToNat frac : ℚ) / (10 : ℚ) ^ frac.length)
    else none
  | _ => none

/-- Source function to_float: strip, keep only digits, dots and minus signs,
then parse as a float; None when empty or unparsable. -/
def to_float (s : String) : Option ℚ :=
  let t := stripList s.data
  if t = [] then none
  else
    let c := t.filter (fun ch => ch.isDigit || ch == '.' || ch == '-')
    match c with
    | '-' :: rest => (parseUnsigned rest).map (fun q => -q)
    | _ => parseUnsigned c

/-- Python int(...) on the cleaned character list. -/
def parseIntDigits (l : List Char) : Option Int :=
  match l with
  | '-' :: rest =>
    if rest ≠ [] ∧ rest.all (·.isDigit) then some (-(digitsToNat rest : Int)) else none
  | _ => if l ≠ [] ∧ l.all (·.isDigit) then some (digitsToNat l : Int) else none

/-- Source function to_int: strip, keep only digits and minus signs,
then parse as an int; None when empty or unparsable. -/
def to_int (s : String) : Option Int :=
  let t := stripList s.data
  if t = [] then none
  else parseIntDigits (t.filter (fun ch => ch.isDigit || ch == '-'))

/-- Round-half-to-even of a rational to an integer (Python round on an
exactly-representable value). -/
def roundHalfEven (q : ℚ) : Int :=
  let n := ⌊q⌋
  let f := q - n
  if f < 1 / 2 then n else if 1 / 2 < f then n + 1 else if n % 2 = 0 then n else n + 1

/-- Python round(x, 2) on the rational model. -/
def round2 (q : ℚ) : ℚ := (roundHalfEven (q * 100) : ℚ) / 100

/-! ## Condition normalizer -/

/-- Source function norm_state: strip and upper-case, map the NEW and USED
synonym sets, pass anything else through. -/
def norm_state (s : String) : String :=
  let t := pyUpper (pyStrip s)
  if t = "NEW" ∨ t = "N" then "NEW"
  else if t = "USED" ∨ t = "U" ∨ t = "PREOWNED" ∨ t = "PRE-OWNED" ∨ t = "CPO" then "USED"
  else t

/-! ## Photo list -/

/-- Python s.split(",") on the character list. -/
def splitComma : List Char → List (List Char)
  | [] => [[]]
  | c :: rest =>
    if c = ',' then [] :: splitComma rest
    else
      match splitComma rest with
      | [] => [[c]]
      | p :: ps => (c :: p) :: ps

/-- Source function first_photo_from_list: first non-blank comma-separated
entry, empty string otherwise. -/
def first_photo_from_list (s : String) : String :=
  if s = "" then ""
  else
    let parts := ((splitComma s.data).map stripList).filter (fun p => p ≠ [])
    match parts with
    | [] => ""
    | p :: _ => ⟨p⟩

/-! ## Dates and the first-seen timestamp parser -/

/-- A Python datetime.date. -/
structure PyDate where
  year : Nat
  month : Nat
  day : Nat
deriving DecidableEq, Repr

/-- Gregorian leap-year test. -/
def isLeap (y : Nat) : Bool := y % 4 == 0 && (y % 100 != 0 || y % 400 == 0)

/-- Length of a month. -/
def daysInMonth (y m : Nat) : Nat :=
  if m = 2 then (if isLeap y then 29 else 28)
  else if m = 4 ∨ m = 6 ∨ m = 9 ∨ m = 11 then 30
  else 31

/-- Day number of a civil date (days since 0000-03-01); differences of this
model Python date subtraction in days. -/
def toDays (d : PyDate) : Int :=
  let y : Nat := if d.month ≤ 2 then d.year - 1 else d.year
  let era := y / 400
  let yoe := y % 400
  let mp := (d.month + 9) % 12
  let doy := (153 * mp + 2) / 5 + d.day - 1
  let doe := yoe * 365 + yoe / 4 - yoe / 100 + doy
  ((era * 146097 + doe : Nat) : Int)

/-- Reads two decimal digits, returning their value and the remainder. -/
def twoDigits : List Char → Option (Nat × List Char)
  | a :: b :: rest =>
    if a.isDigit ∧ b.isDigit then some ((a.toNat - 48) * 10 + (b.toNat - 48), rest)
    else none
  | _ => none

/-- Validates a trailing numeric UTC offset +HH:MM / -HH:MM (the only offset
shape this pipeline ever writes), or nothing at all. -/
def validOffset : List Char → Bool
  | [] => true
  | c :: rest =>
    (c == '+' || c == '-') &&
    (match twoDigits rest with
     | none => false
     | some (oh, r2) =>
       decide (oh < 24) &&
       (match r2 with
        | ':' :: r3 =>
          match twoDigits r3 with
          | none => false
          | some (om, r4) => decide (om < 60) && r4.isEmpty
        | _ => false))

/-- Validates a time of day HH[:MM[:SS[.f{1,6}]]] followed by an optional
offset. -/
def validTime (l : List Char) : Bool :=
  match twoDigits l with
  | none => false
  | some (h, rest) =>
    decide (h < 24) &&
    (match rest with
     | ':' :: r2 =>
       match twoDigits r2 with
       | none => false
       | some (m, r3) =>
         decide (m < 60) &&
         (match r3 with
          | ':' :: r4 =>
            match twoDigits r4 with
            | none => false
            | some (s, r5) =>
              decide (s < 60) &&
              (match r5 with
               | '.' :: r6 =>
                 let frac := r6.takeWhile (·.isDigit)
                 let r7 := r6.dropWhile (·.isDigit)
                 decide (1 ≤ frac.length ∧ frac.length ≤ 6) && validOffset r7
               | _ => validOffset r5)
          | _ => validOffset r3)
     | _ => validOffset rest)

/-- Validates what follows the date: empty, or a one-character separator and
a time. -/
def validRest : List Char → Bool
  | [] => true
  | _ :: t => validTime t

/-- Models datetime.fromisoformat(...).date() on the timestamp grammar this
pipeline reads and writes; any other string is a parse failure. -/
def fromisoformatDate (l : List Char) : Option PyDate :=
  match l with
  | y1 :: y2 :: y3 :: y4 :: '-' :: m1 :: m2 :: '-' :: d1 :: d2 :: rest =>
    if ([y1, y2, y3, y4, m1, m2, d1, d2].all (·.isDigit)) then
      let y := digitsToNat [y1, y2, y3, y4]
      let m := digitsToNat [m1, m2]
      let d := digitsToNat [d1, d2]
      if 1 ≤ y ∧ 1 ≤ m ∧ m ≤ 12 ∧ 1 ≤ d ∧ d ≤ daysInMonth y m ∧ validRest rest = true
      then some ⟨y, m, d⟩ else none
    else none
  | _ => none

/-- Python iso_ts.replace("Z", "+00:00"). -/
def replaceZ : List Char → List Char
  | [] => []
  | c :: rest => (if c = 'Z' then "+00:00".data else [c]) ++ replaceZ rest

/-- Source function parse_first_seen_date: parse the stored timestamp,
tolerating a trailing Z; on failure return the fallback date. -/
def parse_first_seen_date (iso_ts : String) (fallback : PyDate) : PyDate :=
  match fromisoformatDate (replaceZ iso_ts.data) with
  | some d => d
  | none => fallback

/-! ## The row projector (main loop body) -/

/-- The computed output columns, in order (source: COMPUTED_FIELDS). -/
def COMPUTED_FIELDS : List String :=
  ["key", "stock", "trim", "state_of_vehicle_norm", "age_days",
   "age_days_since_first_seen", "price_usd", "sale_price_usd", "discount_usd",
   "image_url", "first_seen_utc"]

/-- Persistent first-seen state: key to ISO timestamp string. -/
abbrev FirstSeen := List (String × String)

/-- Association-list lookup modelling Python dict access. -/
def alookup : List (String × α) → String → Option α
  | [], _ => none
  | (k, v) :: rest, n => if n = k then some v else alookup rest n

/-- Python dict insertion of a key that is not present (dicts append). -/
def fsInsert (fs : FirstSeen) (k v : String) : FirstSeen := fs ++ [(k, v)]

/-- One projected output row: the computed fields plus the preserved raw
columns (raw column values are stored verbatim). -/
structure OutRow where
  key : String
  stock : String
  trim : String
  state_of_vehicle_norm : String
  age_days : Int
  age_days_since_first_seen : Int
  price_usd : Option ℚ
  sale_price_usd : Option ℚ
  discount_usd : Option ℚ
  image_url : String
  first_seen_utc : String
  raw : List (String × String)
deriving DecidableEq, Repr

/-- Python {h: (row.get(h) if row.get(h) is not None else "") for h in headers}. -/
def buildRaw (headers : List String) (row : Row) : List (String × String) :=
  headers.map (fun h => (h, (rowGet row h).getD ""))

/-- The identity key main computes for a row: exact-name lookups of vin
then vehicle_id, each stripped and upper-cased, vin preferred when
non-empty, and a final strip. -/
def keyOf (row : Row) : String :=
  let vin_raw := pyUpper (pyStrip (pick row ["vin"]))
  let vid_raw := pyUpper (pyStrip (pick row ["vehicle_id"]))
  pyStrip (if vin_raw = "" then vid_raw else vin_raw)

/-- The loop body of main: either skips the row (empty key) leaving the
state untouched, or returns the updated first-seen state and the projected
row. -/
def processRow (headers : List String) (nowIso : String) (today : PyDate)
    (fs : FirstSeen) (row : Row) : FirstSeen × Option OutRow :=
  let key := keyOf row
  if key = "" then (fs, none)
  else
    let fs' := if (alookup fs key).isSome then fs else fsInsert fs key nowIso
    let fsTs := (alookup fs' key).getD ""
    let fsDate := parse_first_seen_date fsTs today
    let ageSinceFirstSeen : Int := max 0 (toDays today - toDays fsDate)
    let feedAge := to_int (pick row ["Age"])
    let ageDays : Int := feedAge.getD ageSinceFirstSeen
    let priceUsd := to_float (pick row ["price"])
    let saleUsd := to_float (pick row ["sale_price"])
    let discountUsd : Option ℚ :=
      match priceUsd, saleUsd with
      | some p, some s => if s < p then some (round2 (p - s)) else none
      | _, _ => none
    let stateNorm := norm_state (pick row ["state_of_vehicle", "condition", "availability"])
    let stock0 := pyStrip (pick row ["Stock #"])
    let stock := if stock0 = "" then key else stock0
    let trimVal := pyStrip (pick row ["Trim", "trim"])
    let img0 := pyStrip (pick row ["image[0].url"])
    let imageUrl :=
      if img0 = "" then first_photo_from_list (pick row ["Photo Url List"]) else img0
    (fs',
      some {
        key := key
        stock := stock
        trim := trimVal
        state_of_vehicle_norm := stateNorm
        age_days := ageDays
        age_days_since_first_seen := ageSinceFirstSeen
        price_usd := priceUsd.map round2
        sale_price_usd := saleUsd.map round2
        discount_usd :=
          match discountUsd with
          | some d => if d ≤ 0 then none else some d
          | none => none
        image_url := imageUrl
        first_seen_utc := fsTs
        raw := buildRaw headers row })

/-! ## Sorting (Python sorted, a stable sort) -/

/-- Code-point lexicographic string order (Python str comparison). -/
def lexLE : List Char → List Char → Bool
  | [], _ => true
  | _ :: _, [] => false
  | a :: as, b :: bs =>
    if a.toNat < b.toNat then true
    else if a.toNat = b.toNat then lexLE as bs
    else false

def strLE (a b : String) : Bool := lexLE a.data b.data

def insertSorted (le : α → α → Bool) (x : α) : List α → List α
  | [] => [x]
  | y :: ys => if le x y then x :: y :: ys else y :: insertSorted le x ys

/-- Stable insertion sort; agrees with Python sorted for a total preorder. -/
def sortBy (le : α → α → Bool) (l : List α) : List α := l.foldr (insertSorted le) []

def sortStrings (l : List String) : List String := sortBy strLE l

/-- Value of the built output-row dict at a column name as a string; raw
columns shadow the computed ones because the raw map is merged last. -/
def outRowGetStr (r : OutRow) (n : String) (computed : String) : String :=
  match alookup r.raw n with
  | some v => v
  | none => computed

/-- Source function sort_key (the stable composite row order). -/
def sort_key (r : OutRow) : String × String × String :=
  (outRowGetStr r "state_of_vehicle_norm" r.state_of_vehicle_norm,
   outRowGetStr r "model" "",
   outRowGetStr r "key" r.key)

/-- Lexicographic comparison of sort-key triples (Python tuple order). -/
def tripleLE (a b : String × String × String) : Bool :=
  if a.1 ≠ b.1 then strLE a.1 b.1
  else if a.2.1 ≠ b.2.1 then strLE a.2.1 b.2.1
  else strLE a.2.2 b.2.2

/-! ## The output-row dict and the delta engine -/

/-- A heterogeneous value held in the output-row dict (string, int or
float); the CSV writer stringifies these. -/
inductive CellVal
  | s (v : String)
  | i (v : Int)
  | q (v : ℚ)
deriving DecidableEq, Repr

/-- Numeric computed fields are the empty string when absent. -/
def optQCell : Option ℚ → CellVal
  | none => .s ""
  | some v => .q v

/-- Python r.get(n, "") on the built output row. -/
def emitVal (r : OutRow) (n : String) : CellVal :=
  match alookup r.raw n with
  | some v => .s v
  | none =>
    if n = "key" then .s r.key
    else if n = "stock" then .s r.stock
    else if n = "trim" then .s r.trim
    else if n = "state_of_vehicle_norm" then .s r.state_of_vehicle_norm
    else if n = "age_days" then .i r.age_days
    else if n = "age_days_since_first_seen" then .i r.age_days_since_first_seen
    else if n = "price_usd" then optQCell r.price_usd
    else if n = "sale_price_usd" then optQCell r.sale_price_usd
    else if n = "discount_usd" then optQCell r.discount_usd
    else if n = "image_url" then .s r.image_url
    else if n = "first_seen_utc" then .s r.first_seen_utc
    else .s ""

/-- Python to_float applied to a value read back from the row dict (numeric
values round-trip exactly through repr at these magnitudes). -/
def cellToFloat : CellVal → Option ℚ
  | .s v => to_float v
  | .i v => some (v : ℚ)
  | .q v => some v

/-- Python dict assignment m[k] = v (overwrite or append). -/
def insertOverwrite (m : List (String × α)) (k : String) (v : α) : List (String × α) :=
  if (alookup m k).isSome then m.map (fun p => if p.1 = k then (k, v) else p)
  else m ++ [(k, v)]

/-- The raw input table: header list and data rows. -/
structure CSVFile where
  headers : List String
  rows : List Row

/-- Reads the prior output file into the key-to-row mapping. -/
def buildPrev (t : CSVFile) : List (String × Row) :=
  t.rows.foldl (fun m row =>
    let k := pyStrip ((rowGet row "key").getD "")
    if k = "" then m else insertOverwrite m k row) []

/-- Python {r["key"]: to_float(r.get("sale_price_usd")) for r in rows_out}. -/
def buildCurPrice (rows : List OutRow) : List (String × Option ℚ) :=
  rows.foldl (fun m r =>
    insertOverwrite m (outRowGetStr r "key" r.key) (cellToFloat (emitVal r "sale_price_usd"))) []

/-- Delta component: sorted(now_keys - prev_keys). -/
def deltaAdded (nowKeys prevKeys : List String) : List String :=
  sortStrings (nowKeys.filter (fun k => !prevKeys.contains k))

/-- Delta component: sorted(prev_keys - now_keys). -/
def deltaRemoved (nowKeys prevKeys : List String) : List String :=
  sortStrings (prevKeys.filter (fun k => !nowKeys.contains k))

/-- The old sale price for a key: to_float(prev[k].get("sale_price_usd")). -/
def oldPrice (prev : List (String × Row)) (k : String) : Option ℚ :=
  (alookup prev k).bind (fun row => (rowGet row "sale_price_usd").bind to_float)

/-- Delta component: sorted keys in both runs whose sale prices both parse
and differ by more than 0.1. -/
def priceChanged (nowKeys : List String) (prev : List (String × Row))
    (cur : List (String × Option ℚ)) : List String :=
  sortStrings ((nowKeys.filter (fun k => (alookup prev k).isSome)).filter (fun k =>
    match oldPrice prev k, (alookup cur k).join with
    | some op, some np => decide (|op - np| > 1 / 10)
    | _, _ => false))

/-! ## The pipeline driver -/

structure Delta where
  ts_utc : String
  added : List String
  removed : List String
  price_changed : List String
  counts_now : Nat
  counts_prev : Nat
deriving DecidableEq, Repr

structure Meta where
  ts_utc : String
  rows : Nat
  source : String
  out : String
  computed_fields : List String
  raw_headers : List String
  out_fields : List String
deriving DecidableEq, Repr

structure RunResult where
  rowsOut : List OutRow
  nowKeys : List String
  outFields : List String
  newState : FirstSeen
  delta : Delta
  meta : Meta

/-- Python set.add on the accumulated key list. -/
def addKey (ks : List String) (k : String) : List String :=
  if ks.contains k then ks else ks ++ [k]

/-- The main read loop: project each row in order, accumulating the output
rows and the key set while threading the first-seen state. -/
def processRows (headers : List String) (nowIso : String) (today : PyDate) :
    FirstSeen → List String → List OutRow → List Row →
    FirstSeen × List String × List OutRow
  | fs, ks, acc, [] => (fs, ks, acc)
  | fs, ks, acc, row :: rest =>
    match processRow headers nowIso today fs row with
    | (fs', none) => processRows headers nowIso today fs' ks acc rest
    | (fs', some r) => processRows headers nowIso today fs' (addKey ks r.key) (acc ++ [r]) rest

/-- One end-to-end run of main, starting from the loaded first-seen state;
an error models SystemExit raised before any file is written. -/
def run (inp : Option CSVFile) (prevOut : Option CSVFile) (state0 : FirstSeen)
    (nowIso : String) (today : PyDate) (inpPath outPath : String) :
    Except String RunResult :=
  match inp with
  | none => .error ("Input not found: " ++ inpPath)
  | some t =>
    let prev := match prevOut with
      | none => []
      | some p => buildPrev p
    if t.headers = [] then .error "Input CSV has no headers."
    else if !(t.headers.map pyLower).contains "vin" &&
            !(t.headers.map pyLower).contains "vehicle_id" then
      .error "No vin or vehicle_id column found"
    else
      let outFields := COMPUTED_FIELDS ++ t.headers
      let res := processRows t.headers nowIso today state0 [] [] t.rows
      let rowsOut := sortBy (fun a b => tripleLE (sort_key a) (sort_key b)) res.2.2
      let prevKeys := prev.map (fun p => p.1)
      let cur := buildCurPrice rowsOut
      .ok {
        rowsOut := rowsOut
        nowKeys := res.2.1
        outFields := outFields
        newState := res.1
        delta := {
          ts_utc := nowIso
          added := deltaAdded res.2.1 prevKeys
          removed := deltaRemoved res.2.1 prevKeys
          price_changed := priceChanged res.2.1 prev cur
          counts_now := res.2.1.length
          counts_prev := prev.length }
        meta := {
          ts_utc := nowIso
          rows := rowsOut.length
          source := inpPath
          out := outPath
          computed_fields := COMPUTED_FIELDS
          raw_headers := t.headers
          out_fields := outFields } }

/-- The persisted artifacts of a run. -/
structure Store where
  outFile : Option (List String × List (List CellVal))
  stateFile : FirstSeen
  metaFile : Option Meta
  deltaFile : Option Delta
deriving DecidableEq

/-- Applies a run's writes to the persisted files; an aborted run writes
nothing (every fatal check in main precedes every write). -/
def applyRun (st : Store) (r : Except String RunResult) : Store :=
  match r with
  | .error _ => st
  | .ok res =>
    { outFile := some (res.outFields, res.rowsOut.map (fun r => res.outFields.map (emitVal r)))
      stateFile := res.newState
      metaFile := some res.meta
      deltaFile := some res.delta }

/-- One run against the stored state: load, run, persist. -/
def runStore (st : Store) (inp prevOut : Option CSVFile) (nowIso : String)
    (today : PyDate) (inpPath outPath : String) : Store :=
  applyRun st (run inp prevOut st.stateFile nowIso today inpPath outPath)

/-! ## Contrast definitions following the spec's words

Used only to exhibit where the spec's description and the source differ;
everything else above is translated from the source. -/

/-- Follows the spec's words (claim C6): a case-insensitive field-name
match, taking the first field whose lower-cased name equals the candidate
and whose value is non-blank after stripping. -/
def pickFieldCI (row : Row) (name : String) : String :=
  match row.find? (fun p => decide (pyLower p.1 = name) && !(pyStrip p.2 == "")) with
  | some p => pyStrip p.2
  | none => ""

/-- Follows the spec's words (claim C6): resolve the identity key by a
case-insensitive match on the primary field vin, fall back to vehicle_id
when absent or blank, then upper-case and trim. -/
def specResolveKey (row : Row) : String :=
  let v := pickFieldCI row "vin"
  let w := if v = "" then pickFieldCI row "vehicle_id" else v
  pyStrip (pyUpper w)

/-- Numeric index of a positionally-indexed photo column name of the shape
image[N].url. -/
def photoIdx (h : String) : Option Nat :=
  match h.data with
  | 'i' :: 'm' :: 'a' :: 'g' :: 'e' :: '[' :: rest =>
    let ds := rest.takeWhile (·.isDigit)
    let tail := rest.dropWhile (·.isDigit)
    if ds ≠ [] ∧ tail = [']', '.', 'u', 'r', 'l'] then some (digitsToNat ds) else none
  | _ => none

/-- Follows the spec's words (claim C7): scan the header names for the
indexed-URL pattern, numerically sort the found indices and prefer the
lowest-numbered column's value; else the photo list's first entry; else a
single fallback photo-URL column (the spec names none, photo_url stands in
for it). -/
def specImageUrl (headers : List String) (row : Row) : String :=
  let idxs := sortBy (fun a b => decide (a ≤ b)) (headers.filterMap photoIdx)
  let fromIndexed :=
    match idxs with
    | [] => ""
    | i :: _ =>
      match headers.find? (fun h => photoIdx h == some i) with
      | some h => pyStrip (pick row [h])
      | none => ""
  if fromIndexed ≠ "" then fromIndexed
  else
    let fromList := first_photo_from_list (pick row ["Photo Url List"])
    if fromList ≠ "" then fromList
    else pyStrip (pick row ["photo_url"])

/-- A placeholder output row for total projections out of Option OutRow. -/
def defaultOutRow : OutRow :=
  { key := "", stock := "", trim := "", state_of_vehicle_norm := "", age_days := 0,
    age_days_since_first_seen := 0, price_usd := none, sale_price_usd := none,
    discount_usd := none, image_url := "", first_seen_utc := "", raw := [] }

/-- A placeholder run result for total projections out of Except. -/
def defaultRunResult : RunResult :=
  { rowsOut := [], nowKeys := [], outFields := [], newState := [],
    delta := { ts_utc := "", added := [], removed := [], price_changed := [],
               counts_now := 0, counts_prev := 0 },
    meta := { ts_utc := "", rows := 0, source := "", out := "",
              computed_fields := [], raw_headers := [], out_fields := [] } }

/-! ## Shared lemmas -/

theorem alookup_append_of_some {α : Type} {m : List (String × α)} {k : String} {v : α}
    (l : List (String × α)) (h : alookup m k = some v) : alookup (m ++ l) k = some v := by
  induction m with
  | nil => simp [alookup] at h
  | cons p rest ih =>
    obtain ⟨pk, pv⟩ := p
    by_cases hk : k = pk
    · simp only [alookup, if_pos hk] at h
      simpa [alookup, if_pos hk] using h
    · simp only [alookup, if_neg hk] at h
      simpa [alookup, if_neg hk] using ih h

theorem alookup_map_self {α : Type} (f : String → α) (l : List String) (k : String) :
    alookup (l.map (fun h => (h, f h))) k = if k ∈ l then some (f k) else none := by
  induction l with
  | nil => simp [alookup]
  | cons a t ih =>
    by_cases hk : k = a
    · subst hk
      simp [alookup, ih]
    · simp [alookup, hk, ih]

theorem alookup_isSome_iff_mem {α : Type} (m : List (String × α)) (k : String) :
    (alookup m k).isSome = true ↔ k ∈ m.map (fun p => p.1) := by
  induction m with
  | nil => simp [alookup]
  | cons p rest ih =>
    obtain ⟨pk, pv⟩ := p
    by_cases hk : k = pk
    · simp [alookup, hk]
    · simp [alookup, hk, ih]

theorem mem_insertSorted {α : Type} (le : α → α → Bool) (x y : α) (l : List α) :
    y ∈ insertSorted le x l ↔ y = x ∨ y ∈ l := by
  induction l with
  | nil => simp [insertSorted]
  | cons a t ih =>
    by_cases h : le x a
    · simp [insertSorted, h]
    · simp [insertSorted, h, ih]
      tauto

theorem mem_sortBy {α : Type} (le : α → α → Bool) (x : α) (l : List α) :
    x ∈ sortBy le l ↔ x ∈ l := by
  induction l with
  | nil => simp [sortBy]
  | cons a t ih =>
    show x ∈ insertSorted le a (sortBy le t) ↔ _
    rw [mem_insertSorted]
    simp [ih]

theorem pairwise_insertSorted {α : Type} (le : α → α → Bool)
    (htot : ∀ a b, le a b = true ∨ le b a = true)
    (htrans : ∀ a b c, le a b = true → le b c = true → le a c = true)
    (x : α) (l : List α) (hl : l.Pairwise (fun a b => le a b = true)) :
    (insertSorted le x l).Pairwise (fun a b => le a b = true) := by
  induction l with
  | nil => simp [insertSorted]
  | cons a t ih =>
    rcases List.pairwise_cons.mp hl with ⟨ha, ht⟩
    by_cases hxa : le x a = true
    · have : insertSorted le x (a :: t) = x :: a :: t := by
        simp [insertSorted, hxa]
      rw [this]
      refine List.pairwise_cons.mpr ⟨?_, hl⟩
      intro b hb
      rcases List.mem_cons.mp hb with hb | hb
      · exact hb ▸ hxa
      · exact htrans x a b hxa (ha b hb)
    · have : insertSorted le x (a :: t) = a :: insertSorted le x t := by
        simp [insertSorted, hxa]
      rw [this]
      refine List.pairwise_cons.mpr ⟨?_, ih ht⟩
      intro b hb
      rcases (mem_insertSorted le x b t).mp hb with hb | hb
      · rw [hb]
        exact (htot x a).resolve_left hxa
      · exact ha b hb

theorem pairwise_sortBy {α : Type} (le : α → α → Bool)
    (htot : ∀ a b, le a b = true ∨ le b a = true)
    (htrans : ∀ a b c, le a b = true → le b c = true → le a c = true)
    (l : List α) : (sortBy le l).Pairwise (fun a b => le a b = true) := by
  induction l with
  | nil => simp [sortBy]
  | cons a t ih => exact pairwise_insertSorted le htot htrans a (sortBy le t) ih

theorem lexLE_total : ∀ a b : List Char, lexLE a b = true ∨ lexLE b a = true
  | [], _ => Or.inl rfl
  | _ :: _, [] => Or.inr rfl
  | a :: as, b :: bs => by
    rcases Nat.lt_trichotomy a.toNat b.toNat with h | h | h
    · left
      simp [lexLE, h]
    · rcases lexLE_total as bs with ih | ih
      · left
        simp [lexLE, h, Nat.lt_irrefl, ih]
      · right
        simp [lexLE, h.symm, Nat.lt_irrefl, ih]
    · right
      simp [lexLE, h]

theorem lexLE_trans : ∀ a b c : List Char,
    lexLE a b = true → lexLE b c = true → lexLE a c = true
  | [], _, _, _, _ => rfl
  | _ :: _, [], _, hab, _ => by simp [lexLE] at hab
  | _ :: _, _ :: _, [], _, hbc => by simp [lexLE] at hbc
  | a :: as, b :: bs, c :: cs, hab, hbc => by
    simp only [lexLE] at hab hbc ⊢
    rcases Nat.lt_trichotomy a.toNat b.toNat with h1 | h1 | h1
    · rcases Nat.lt_trichotomy b.toNat c.toNat with h2 | h2 | h2
      · simp [show a.toNat < c.toNat by omega]
      · simp [show a.toNat < c.toNat by omega]
      · rw [if_neg (by omega), if_neg (by omega)] at hbc
        simp at hbc
    · rcases Nat.lt_trichotomy b.toNat c.toNat with h2 | h2 | h2
      · simp [show a.toNat < c.toNat by omega]
      · rw [if_neg (by omega), if_pos h1] at hab
        rw [if_neg (by omega), if_pos h2] at hbc
        rw [if_neg (by omega), if_pos (by omega)]
        exact lexLE_trans as bs cs hab hbc
      · rw [if_neg (by omega), if_neg (by omega)] at hbc
        simp at hbc
    · rw [if_neg (by omega), if_neg (by omega)] at hab
      simp at hab

theorem strLE_total (a b : String) : strLE a b = true ∨ strLE b a = true :=
  lexLE_total a.data b.data

theorem strLE_trans (a b c : String) (h1 : strLE a b = true) (h2 : strLE b c = true) :
    strLE a c = true :=
  lexLE_trans a.data b.data c.data h1 h2

/-- Sortedness in the Python string order. -/
def sortedStr (l : List String) : Prop := l.Pairwise (fun a b => strLE a b = true)

theorem sortedStr_sortStrings (l : List String) : sortedStr (sortStrings l) :=
  pairwise_sortBy strLE strLE_total (fun a b c => strLE_trans a b c) l

theorem mem_sortStrings (k : String) (l : List String) : k ∈ sortStrings l ↔ k ∈ l :=
  mem_sortBy strLE k l

theorem processRow_skip (headers : List String) (nowIso : String) (today : PyDate)
    (fs : FirstSeen) (row : Row) (h : keyOf row = "") :
    processRow headers nowIso today fs row = (fs, none) := by
  simp only [processRow]
  rw [if_pos h]

theorem processRow_retained {headers : List String} {nowIso : String} {today : PyDate}
    {fs fs' : FirstSeen} {row : Row} {r : OutRow}
    (h : processRow headers nowIso today fs row = (fs', some r)) :
    keyOf row ≠ "" ∧
    fs' = (if (alookup fs (keyOf row)).isSome then fs else fsInsert fs (keyOf row) nowIso) ∧
    r.key = keyOf row ∧
    r.first_seen_utc = (alookup fs' (keyOf row)).getD "" ∧
    r.age_days_since_first_seen =
      max 0 (toDays today - toDays (parse_first_seen_date r.first_seen_utc today)) ∧
    r.age_days = (to_int (pick row ["Age"])).getD r.age_days_since_first_seen ∧
    r.price_usd = (to_float (pick row ["price"])).map round2 ∧
    r.sale_price_usd = (to_float (pick row ["sale_price"])).map round2 ∧
    r.discount_usd =
      (match (match to_float (pick row ["price"]), to_float (pick row ["sale_price"]) with
              | some p, some s => if s < p then some (round2 (p - s)) else none
              | _, _ => none) with
       | some d => if d ≤ 0 then none else some d
       | none => none) ∧
    r.image_url =
      (if pyStrip (pick row ["image[0].url"]) = ""
       then first_photo_from_list (pick row ["Photo Url List"])
       else pyStrip (pick row ["image[0].url"])) ∧
    r.state_of_vehicle_norm =
      norm_state (pick row ["state_of_vehicle", "condition", "availability"]) ∧
    r.raw = buildRaw headers row := by
  by_cases hk : keyOf row = ""
  · rw [processRow_skip headers nowIso today fs row hk] at h
    simp at h
  · simp only [processRow] at h
    rw [if_neg hk] at h
    rw [Prod.mk.injEq, Option.some.injEq] at h
    obtain ⟨h1, h2⟩ := h
    subst h1
    subst h2
    exact ⟨hk, rfl, rfl, rfl, rfl, rfl, rfl, rfl, rfl, rfl, rfl, rfl⟩

theorem processRow_not_skip (headers : List String) (nowIso : String) (today : PyDate)
    (fs : FirstSeen) (row : Row) (h : keyOf row ≠ "") :
    ∃ fs' r, processRow headers nowIso today fs row = (fs', some r) ∧ r.key = keyOf row := by
  simp only [processRow]
  rw [if_neg h]
  exact ⟨_, _, rfl, rfl⟩

theorem processRow_state_preserved (headers : List String) (nowIso : String) (today : PyDate)
    (fs : FirstSeen) (row : Row) (k v : String) (h : alookup fs k = some v) :
    alookup (processRow headers nowIso today fs row).1 k = some v := by
  by_cases hk : keyOf row = ""
  · rw [processRow_skip headers nowIso today fs row hk]
    exact h
  · simp only [processRow]
    rw [if_neg hk]
    show alookup (if (alookup fs (keyOf row)).isSome then fs
      else fsInsert fs (keyOf row) nowIso) k = some v
    by_cases hs : (alookup fs (keyOf row)).isSome
    · rw [if_pos hs]
      exact h
    · rw [if_neg hs]
      exact alookup_append_of_some _ h

theorem processRows_state_preserved (headers : List String) (nowIso : String) (today : PyDate) :
    ∀ (rows : List Row) (fs : FirstSeen) (ks : List String) (acc : List OutRow) (k v : String),
    alookup fs k = some v →
    alookup (processRows headers nowIso today fs ks acc rows).1 k = some v
  | [], fs, ks, acc, k, v, h => by simpa [processRows] using h
  | row :: rest, fs, ks, acc, k, v, h => by
    have hp := processRow_state_preserved headers nowIso today fs row k v h
    unfold processRows
    rcases hpr : processRow headers nowIso today fs row with ⟨fs', o⟩
    rw [hpr] at hp
    cases o with
    | none =>
      simp only [hpr]
      exact processRows_state_preserved headers nowIso today rest fs' ks acc k v hp
    | some r =>
      simp only [hpr]
      exact processRows_state_preserved headers nowIso today rest fs' _ _ k v hp

theorem mem_addKey (ks : List String) (k k' : String) :
    k ∈ addKey ks k' ↔ k ∈ ks ∨ k = k' := by
  unfold addKey
  by_cases h : ks.contains k'
  · rw [if_pos h]
    constructor
    · exact Or.inl
    · rintro (hk | hk)
      · exact hk
      · rw [hk]
        have := List.elem_iff.mp h
        exact this
  · rw [if_neg h]
    simp

theorem processRows_keys_nonempty (headers : List String) (nowIso : String) (today : PyDate) :
    ∀ (rows : List Row) (fs : FirstSeen) (ks : List String) (acc : List OutRow),
    (∀ k ∈ ks, k ≠ "") →
    ∀ k ∈ (processRows headers nowIso today fs ks acc rows).2.1, k ≠ ""
  | [], fs, ks, acc, hks => by simpa [processRows] using hks
  | row :: rest, fs, ks, acc, hks => by
    unfold processRows
    rcases hpr : processRow headers nowIso today fs row with ⟨fs', o⟩
    cases o with
    | none =>
      simp only [hpr]
      exact processRows_keys_nonempty headers nowIso today rest fs' ks acc hks
    | some r =>
      simp only [hpr]
      apply processRows_keys_nonempty headers nowIso today rest fs' _ _
      intro k hk
      rcases (mem_addKey ks k r.key).mp hk with hk | hk
      · exact hks k hk
      · rw [hk]
        rcases processRow_retained hpr with ⟨hne, _, hkey, _⟩
        rw [hkey]
        exact hne

theorem processRows_rows_from (headers : List String) (nowIso : String) (today : PyDate) :
    ∀ (rows : List Row) (fs : FirstSeen) (ks : List String) (acc : List OutRow) (r : OutRow),
    r ∈ (processRows headers nowIso today fs ks acc rows).2.2 →
    r ∈ acc ∨ ∃ row ∈ rows, ∃ fs0 fs1,
      processRow headers nowIso today fs0 row = (fs1, some r)
  | [], fs, ks, acc, r, h => by
    left
    simpa [processRows] using h
  | row :: rest, fs, ks, acc, r, h => by
    unfold processRows at h
    rcases hpr : processRow headers nowIso today fs row with ⟨fs', o⟩
    rw [hpr] at h
    cases o with
    | none =>
      rcases processRows_rows_from headers nowIso today rest fs' ks acc r h with hl | ⟨row', hm, w⟩
      · exact Or.inl hl
      · exact Or.inr ⟨row', List.mem_cons_of_mem _ hm, w⟩
    | some r' =>
      rcases processRows_rows_from headers nowIso today rest fs' _ _ r h with hl | ⟨row', hm, w⟩
      · rcases List.mem_append.mp hl with hl | hl
        · exact Or.inl hl
        · right
          refine ⟨row, List.mem_cons_self row rest, fs, fs', ?_⟩
          rw [hpr, List.mem_singleton.mp hl]
      · exact Or.inr ⟨row', List.mem_cons_of_mem _ hm, w⟩

theorem run_ok {inp prevOut : Option CSVFile} {state0 : FirstSeen} {nowIso : String}
    {today : PyDate} {ip op : String} {res : RunResult}
    (h : run inp prevOut state0 nowIso today ip op = Except.ok res) :
    ∃ t, inp = some t ∧
      res.newState = (processRows t.headers nowIso today state0 [] [] t.rows).1 ∧
      res.nowKeys = (processRows t.headers nowIso today state0 [] [] t.rows).2.1 ∧
      res.rowsOut = sortBy (fun a b => tripleLE (sort_key a) (sort_key b))
        (processRows t.headers nowIso today state0 [] [] t.rows).2.2 ∧
      res.outFields = COMPUTED_FIELDS ++ t.headers ∧
      res.meta.out_fields = COMPUTED_FIELDS ++ t.headers ∧
      res.meta.raw_headers = t.headers ∧
      res.meta.computed_fields = COMPUTED_FIELDS := by
  cases inp with
  | none => simp [run] at h
  | some t =>
    refine ⟨t, rfl, ?_⟩
    simp only [run] at h
    split at h
    · simp at h
    · split at h
      · simp at h
      · rw [Except.ok.injEq] at h
        subst h
        exact ⟨rfl, rfl, rfl, rfl, rfl, rfl, rfl⟩

theorem to_float_empty : to_float "" = none := rfl

/-! ## Claim C10 -/

/-- C10: the condition normalizer is idempotent, and its result is always
either the empty string, NEW, USED, or the trimmed upper-cased input. -/
theorem c10_norm_state_idempotent (s : String) :
    norm_state (norm_state s) = norm_state s ∧
    (norm_state s = "" ∨ norm_state s = "NEW" ∨ norm_state s = "USED" ∨
      norm_state s = pyUpper (pyStrip s)) := by
  have hdef : ∀ u : String, norm_state u =
      (if pyUpper (pyStrip u) = "NEW" ∨ pyUpper (pyStrip u) = "N" then "NEW"
       else if pyUpper (pyStrip u) = "USED" ∨ pyUpper (pyStrip u) = "U" ∨
              pyUpper (pyStrip u) = "PREOWNED" ∨ pyUpper (pyStrip u) = "PRE-OWNED" ∨
              pyUpper (pyStrip u) = "CPO" then "USED"
       else pyUpper (pyStrip u)) := fun u => rfl
  by_cases h1 : pyUpper (pyStrip s) = "NEW" ∨ pyUpper (pyStrip s) = "N"
  · have hs : norm_state s = "NEW" := by
      rw [hdef s, if_pos h1]
    rw [hs]
    exact ⟨by decide, Or.inr (Or.inl rfl)⟩
  · by_cases h2 : pyUpper (pyStrip s) = "USED" ∨ pyUpper (pyStrip s) = "U" ∨
        pyUpper (pyStrip s) = "PREOWNED" ∨ pyUpper (pyStrip s) = "PRE-OWNED" ∨
        pyUpper (pyStrip s) = "CPO"
    · have hs : norm_state s = "USED" := by
        rw [hdef s, if_neg h1, if_pos h2]
      rw [hs]
      exact ⟨by decide, Or.inr (Or.inr (Or.inl rfl))⟩
    · have hs : norm_state s = pyUpper (pyStrip s) := by
        rw [hdef s, if_neg h1, if_neg h2]
      rw [hs]
      have hid : pyUpper (pyStrip (pyUpper (pyStrip s))) = pyUpper (pyStrip s) :=
        upperStrip_idem s
      refine ⟨?_, Or.inr (Or.inr (Or.inr rfl))⟩
      rw [hdef (pyUpper (pyStrip s)), hid, if_neg h1, if_neg h2]

/-! ## Claim C1 -/

/-- The C1 example row from the spec: asking price present, sale price
blank. -/
def c1Row : Row := [("vin", "1FA123"), ("price", "$32,570"), ("sale_price", "")]

/-- The projected row for the C1 example. -/
def c1Out : Option OutRow :=
  (processRow ["vin", "price", "sale_price"] "2026-01-01T00:00:00+00:00" ⟨2026, 1, 1⟩
    [] c1Row).2

/-- C1 counterexample: on the spec's own example (asking 32570, blank sale
price) the retained row's sale_price_usd is the empty sentinel, not the
asking value: the code performs no price inheritance. -/
theorem c1_counterexample :
    to_float (pick c1Row ["price"]) = some 32570 ∧
    pick c1Row ["sale_price"] = "" ∧
    c1Out.isSome = true ∧
    (c1Out.getD defaultOutRow).sale_price_usd = none ∧
    ¬(c1Out.getD defaultOutRow).sale_price_usd = some 32570 := by
  refine ⟨by decide, by decide, by decide, by decide, ?_⟩
  intro h
  have : (none : Option ℚ) = some 32570 := by
    have he : (c1Out.getD defaultOutRow).sale_price_usd = none := by decide
    rw [← he, h]
  exact absurd this (by decide)

/-- C1 (amended): for every retained record whose sale-price field is
absent or blank and whose asking price parses to a number, the projected
row's sale_price_usd is the empty sentinel (no inheritance takes place)
and discount_usd is the empty sentinel, while price_usd carries the asking
value. -/
theorem c1_no_sale_price_inheritance
    {headers : List String} {nowIso : String} {today : PyDate}
    {fs fs' : FirstSeen} {row : Row} {r : OutRow} {p : ℚ}
    (hrun : processRow headers nowIso today fs row = (fs', some r))
    (hsale : pick row ["sale_price"] = "")
    (hprice : to_float (pick row ["price"]) = some p) :
    r.sale_price_usd = none ∧ r.discount_usd = none ∧ r.price_usd = some (round2 p) := by
  obtain ⟨-, -, -, -, -, -, hpr, hsl, hdc, -⟩ := processRow_retained hrun
  rw [hsale, to_float_empty] at hsl hdc
  rw [hprice] at hdc hpr
  refine ⟨by simpa using hsl, ?_, by simpa using hpr⟩
  simpa using hdc

set_option maxHeartbeats 1000000 in
/-- C1 amended witness: the spec's example record instantiates the amended
claim. -/
theorem c1_no_sale_price_inheritance_witness :
    (c1Out.getD defaultOutRow).sale_price_usd = none ∧
    (c1Out.getD defaultOutRow).discount_usd = none ∧
    (c1Out.getD defaultOutRow).price_usd = some (round2 32570) :=
  @c1_no_sale_price_inheritance ["vin", "price", "sale_price"]
    "2026-01-01T00:00:00+00:00" ⟨2026, 1, 1⟩ []
    (processRow ["vin", "price", "sale_price"] "2026-01-01T00:00:00+00:00" ⟨2026, 1, 1⟩
      [] c1Row).1
    c1Row (c1Out.getD defaultOutRow) 32570 rfl (by decide) (by decide)

/-! ## Claim C2 -/

/-- C2: any key already bound in the first-seen state at run start is bound
to the same timestamp string in the state a successful run persists:
entries are only added for unseen keys, never overwritten and never
removed (also when the key is absent from the current feed). -/
theorem c2_first_seen_monotonic (inp prevOut : Option CSVFile) (state0 : FirstSeen)
    (nowIso : String) (today : PyDate) (ip op : String) (res : RunResult) (k v : String)
    (hrun : run inp prevOut state0 nowIso today ip op = Except.ok res)
    (hk : alookup state0 k = some v) :
    alookup res.newState k = some v := by
  rcases run_ok hrun with ⟨t, -, hstate, -⟩
  rw [hstate]
  exact processRows_state_preserved _ _ _ _ _ _ _ _ _ hk

/-- Input table for the C2 witness: the key B2 is absent from the feed. -/
def c2Inp : CSVFile := ⟨["vin"], [[("vin", "A1")]]⟩

/-- Result of the C2 witness run, starting from a state that already binds
B2. -/
def c2Res : RunResult :=
  match run (some c2Inp) none [("B2", "TS0")] "2026-01-02T00:00:00+00:00" ⟨2026, 1, 2⟩
      "i" "o" with
  | Except.ok r => r
  | Except.error _ => defaultRunResult

/-- C2 witness: a concrete run keeps the pre-existing binding of B2 even
though B2 is missing from the feed. -/
theorem c2_first_seen_monotonic_witness :
    alookup [("B2", "TS0")] "B2" = some "TS0" ∧ alookup c2Res.newState "B2" = some "TS0" :=
  ⟨rfl, c2_first_seen_monotonic (some c2Inp) none [("B2", "TS0")]
    "2026-01-02T00:00:00+00:00" ⟨2026, 1, 2⟩ "i" "o" c2Res "B2" "TS0" rfl rfl⟩

/-! ## Claim C3 -/

theorem changedCond_iff (prev : List (String × Row)) (cur : List (String × Option ℚ))
    (k : String) :
    (match oldPrice prev k, (alookup cur k).join with
     | some op, some np => decide (|op - np| > 1 / 10)
     | _, _ => false) = true ↔
    ∃ op np, oldPrice prev k = some op ∧ (alookup cur k).join = some np ∧
      |op - np| > 1 / 10 := by
  rcases ho : oldPrice prev k with _ | op <;>
    rcases hn : (alookup cur k).join with _ | np <;> simp

theorem mem_deltaAdded (nowKeys prevKeys : List String) (k : String) :
    k ∈ deltaAdded nowKeys prevKeys ↔ k ∈ nowKeys ∧ k ∉ prevKeys := by
  unfold deltaAdded
  rw [mem_sortStrings, List.mem_filter]
  simp

theorem mem_deltaRemoved (nowKeys prevKeys : List String) (k : String) :
    k ∈ deltaRemoved nowKeys prevKeys ↔ k ∈ prevKeys ∧ k ∉ nowKeys := by
  unfold deltaRemoved
  rw [mem_sortStrings, List.mem_filter]
  simp

theorem mem_priceChanged (nowKeys : List String) (prev : List (String × Row))
    (cur : List (String × Option ℚ)) (k : String) :
    k ∈ priceChanged nowKeys prev cur ↔
      k ∈ nowKeys ∧ k ∈ prev.map (fun p => p.1) ∧
      ∃ op np, oldPrice prev k = some op ∧ (alookup cur k).join = some np ∧
        |op - np| > 1 / 10 := by
  unfold priceChanged
  rw [mem_sortStrings, List.mem_filter, List.mem_filter]
  rw [changedCond_iff]
  rw [← alookup_isSome_iff_mem]
  tauto

/-- C3: the delta engine returns added as the sorted keys present now but
not previously, removed as the sorted keys present previously but not now
(hence the two are disjoint), and price_changed as the sorted keys present
in both runs whose sale-price values both parse and differ by more than
the 0.1 tolerance; a key with either side unparsable is never reported as
changed. -/
theorem c3_delta_engine (nowKeys : List String) (prev : List (String × Row))
    (cur : List (String × Option ℚ)) :
    (∀ k, k ∈ deltaAdded nowKeys (prev.map (fun p => p.1)) ↔
      k ∈ nowKeys ∧ k ∉ prev.map (fun p => p.1)) ∧
    (∀ k, k ∈ deltaRemoved nowKeys (prev.map (fun p => p.1)) ↔
      k ∈ prev.map (fun p => p.1) ∧ k ∉ nowKeys) ∧
    (∀ k, ¬(k ∈ deltaAdded nowKeys (prev.map (fun p => p.1)) ∧
            k ∈ deltaRemoved nowKeys (prev.map (fun p => p.1)))) ∧
    (∀ k, k ∈ priceChanged nowKeys prev cur ↔
      k ∈ nowKeys ∧ k ∈ prev.map (fun p => p.1) ∧
      ∃ op np, oldPrice prev k = some op ∧ (alookup cur k).join = some np ∧
        |op - np| > 1 / 10) ∧
    (∀ k, (oldPrice prev k = none ∨ (alookup cur k).join = none) →
      k ∉ priceChanged nowKeys prev cur) ∧
    sortedStr (deltaAdded nowKeys (prev.map (fun p => p.1))) ∧
    sortedStr (deltaRemoved nowKeys (prev.map (fun p => p.1))) ∧
    sortedStr (priceChanged nowKeys prev cur) := by
  refine ⟨fun k => mem_deltaAdded _ _ k, fun k => mem_deltaRemoved _ _ k,
    fun k hk => ?_, fun k => mem_priceChanged _ _ _ k, fun k hnp hk => ?_,
    sortedStr_sortStrings _, sortedStr_sortStrings _, sortedStr_sortStrings _⟩
  · rcases hk with ⟨ha, hr⟩
    rcases (mem_deltaAdded _ _ k).mp ha with ⟨-, hnot⟩
    rcases (mem_deltaRemoved _ _ k).mp hr with ⟨hmem, -⟩
    exact hnot hmem
  · rcases (mem_priceChanged _ _ _ k).mp hk with ⟨-, -, op, np, hop, hnp2, -⟩
    rcases hnp with hno | hno
    · rw [hno] at hop
      exact absurd hop (by simp)
    · rw [hno] at hnp2
      exact absurd hnp2 (by simp)

/-! ## Claim C4 -/

theorem discount_per_row {headers : List String} {nowIso : String} {today : PyDate}
    {fs fs' : FirstSeen} {row : Row} {r : OutRow}
    (hrun : processRow headers nowIso today fs row = (fs', some r)) :
    r.discount_usd = none ∨
    ∃ p s, to_float (pick row ["price"]) = some p ∧
      to_float (pick row ["sale_price"]) = some s ∧ s < p ∧
      0 < round2 (p - s) ∧ r.discount_usd = some (round2 (p - s)) := by
  obtain ⟨-, -, -, -, -, -, -, -, hdc, -⟩ := processRow_retained hrun
  rcases hp : to_float (pick row ["price"]) with _ | p
  · rw [hp] at hdc
    exact Or.inl (by simpa using hdc)
  · rcases hs : to_float (pick row ["sale_price"]) with _ | s
    · rw [hp, hs] at hdc
      exact Or.inl (by simpa using hdc)
    · rw [hp, hs] at hdc
      simp only at hdc
      by_cases hlt : s < p
      · rw [if_pos hlt] at hdc
        simp only at hdc
        by_cases hz : round2 (p - s) ≤ 0
        · rw [if_pos hz] at hdc
          exact Or.inl hdc
        · rw [if_neg hz] at hdc
          exact Or.inr ⟨p, s, rfl, rfl, hlt, lt_of_not_le hz, hdc⟩
      · rw [if_neg hlt] at hdc
        exact Or.inl (by simpa using hdc)

/-- C4: every output row's discount_usd is either the empty sentinel or a
strictly positive number equal to asking minus sale rounded to 2 decimal
places; zero and negative values (including differences that round to
zero) are never emitted, at the row projector and across every successful
run. -/
theorem c4_discount_sign_invariant :
    (∀ (headers : List String) (nowIso : String) (today : PyDate)
      (fs fs' : FirstSeen) (row : Row) (r : OutRow),
      processRow headers nowIso today fs row = (fs', some r) →
      r.discount_usd = none ∨
      ∃ p s, to_float (pick row ["price"]) = some p ∧
        to_float (pick row ["sale_price"]) = some s ∧ s < p ∧
        0 < round2 (p - s) ∧ r.discount_usd = some (round2 (p - s))) ∧
    (∀ (inp prevOut : Option CSVFile) (state0 : FirstSeen) (nowIso : String)
      (today : PyDate) (ip op : String) (res : RunResult) (r : OutRow),
      run inp prevOut state0 nowIso today ip op = Except.ok res →
      r ∈ res.rowsOut →
      r.discount_usd = none ∨ ∃ d : ℚ, r.discount_usd = some d ∧ 0 < d) := by
  refine ⟨fun _ _ _ _ _ _ _ h => discount_per_row h, ?_⟩
  intro inp prevOut state0 nowIso today ip op res r hrun hr
  rcases run_ok hrun with ⟨t, -, -, -, hrows, -⟩
  rw [hrows, mem_sortBy] at hr
  rcases processRows_rows_from t.headers nowIso today t.rows state0 [] [] r hr with
    hl | ⟨row, -, fs0, fs1, hpr⟩
  · simp at hl
  · rcases discount_per_row hpr with hd | ⟨p, s, -, -, -, hpos, hd⟩
    · exact Or.inl hd
    · exact Or.inr ⟨round2 (p - s), hd, hpos⟩

/-- The C4 witness row: asking 100, sale 40, discount 60. -/
def c4Row : Row := [("vin", "K1"), ("price", "100"), ("sale_price", "40")]

/-- The projected row for the C4 witness. -/
def c4Out : OutRow :=
  ((processRow ["vin", "price", "sale_price"] "2026-01-01T00:00:00+00:00" ⟨2026, 1, 1⟩
    [] c4Row).2).getD defaultOutRow

set_option maxHeartbeats 1000000 in
/-- C4 witness: the invariant instantiated on a concrete discounted row. -/
theorem c4_discount_sign_invariant_witness :
    c4Out.discount_usd = none ∨
    ∃ p s, to_float (pick c4Row ["price"]) = some p ∧
      to_float (pick c4Row ["sale_price"]) = some s ∧ s < p ∧
      0 < round2 (p - s) ∧ c4Out.discount_usd = some (round2 (p - s)) :=
  c4_discount_sign_invariant.1 ["vin", "price", "sale_price"]
    "2026-01-01T00:00:00+00:00" ⟨2026, 1, 1⟩ []
    (processRow ["vin", "price", "sale_price"] "2026-01-01T00:00:00+00:00" ⟨2026, 1, 1⟩
      [] c4Row).1
    c4Row c4Out rfl

/-! ## Claim C5 -/

/-- C5: if the input table is missing, or its header row contains neither a
vin column nor a vehicle_id column (case-insensitively), the run aborts
with an error before writing anything: the persisted output, first-seen
state, metadata and delta files are unchanged. -/
theorem c5_fatal_preconditions (st : Store) (inp prevOut : Option CSVFile)
    (nowIso : String) (today : PyDate) (ip op : String)
    (hbad : inp = none ∨ ∃ t, inp = some t ∧
      ∀ h ∈ t.headers, pyLower h ≠ "vin" ∧ pyLower h ≠ "vehicle_id") :
    (∃ e, run inp prevOut st.stateFile nowIso today ip op = Except.error e) ∧
    runStore st inp prevOut nowIso today ip op = st := by
  have herr : ∃ e, run inp prevOut st.stateFile nowIso today ip op = Except.error e := by
    rcases hbad with hnone | ⟨t, hsome, hcols⟩
    · subst hnone
      exact ⟨_, rfl⟩
    · subst hsome
      simp only [run]
      by_cases hemp : t.headers = []
      · rw [if_pos hemp]
        exact ⟨_, rfl⟩
      · rw [if_neg hemp]
        have hvin : (t.headers.map pyLower).contains "vin" = false := by
          rw [← Bool.not_eq_true]
          intro hc
          rcases List.mem_map.mp (List.elem_iff.mp hc) with ⟨h0, hm, he⟩
          exact (hcols h0 hm).1 he
        have hvid : (t.headers.map pyLower).contains "vehicle_id" = false := by
          rw [← Bool.not_eq_true]
          intro hc
          rcases List.mem_map.mp (List.elem_iff.mp hc) with ⟨h0, hm, he⟩
          exact (hcols h0 hm).2 he
        rw [hvin, hvid]
        exact ⟨_, rfl⟩
  obtain ⟨e, he⟩ := herr
  refine ⟨⟨e, he⟩, ?_⟩
  unfold runStore
  rw [he]
  rfl

/-- A concrete store for the C5 witness. -/
def c5Store : Store :=
  { outFile := none, stateFile := [("K", "T")], metaFile := none, deltaFile := none }

/-- C5 witness: a missing input table aborts the run and leaves the store
untouched. -/
theorem c5_fatal_preconditions_witness :
    (∃ e, run none none c5Store.stateFile "N" ⟨2026, 1, 1⟩ "i" "o" = Except.error e) ∧
    runStore c5Store none none "N" ⟨2026, 1, 1⟩ "i" "o" = c5Store :=
  c5_fatal_preconditions c5Store none none "N" ⟨2026, 1, 1⟩ "i" "o" (Or.inl rfl)

/-! ## Claim C6 -/

/-- A row whose only identity column is named VIN in upper case. -/
def c6Row : Row := [("VIN", "abc")]

/-- C6 counterexample: the claimed case-insensitive resolver would derive
the key ABC and retain the record, but the code's exact-name lookup of vin
and vehicle_id finds nothing and silently drops it. -/
theorem c6_counterexample :
    specResolveKey c6Row = "ABC" ∧
    keyOf c6Row = "" ∧
    (processRow ["VIN"] "2026-01-01T00:00:00+00:00" ⟨2026, 1, 1⟩ [] c6Row).2 = none := by
  refine ⟨by decide, by decide, ?_⟩
  rw [processRow_skip _ _ _ _ _ (by decide)]

/-- C6 (amended): the identity key is resolved by exact (case-sensitive)
lookups of the field vin, falling back to vehicle_id when absent or blank,
each stripped and upper-cased; a record with an empty resulting key is
silently skipped with the state untouched, every retained row carries its
key, and every key in a successful run's key set is non-empty. -/
theorem c6_key_resolution :
    (∀ row : Row, keyOf row =
      pyStrip (if pyUpper (pyStrip (pick row ["vin"])) = ""
        then pyUpper (pyStrip (pick row ["vehicle_id"]))
        else pyUpper (pyStrip (pick row ["vin"])))) ∧
    (∀ (headers : List String) (nowIso : String) (today : PyDate) (fs : FirstSeen)
      (row : Row), keyOf row = "" →
      processRow headers nowIso today fs row = (fs, none)) ∧
    (∀ (headers : List String) (nowIso : String) (today : PyDate) (fs : FirstSeen)
      (row : Row), keyOf row ≠ "" →
      ∃ fs' r, processRow headers nowIso today fs row = (fs', some r) ∧
        r.key = keyOf row) ∧
    (∀ (inp prevOut : Option CSVFile) (state0 : FirstSeen) (nowIso : String)
      (today : PyDate) (ip op : String) (res : RunResult) (k : String),
      run inp prevOut state0 nowIso today ip op = Except.ok res →
      k ∈ res.nowKeys → k ≠ "") := by
  refine ⟨fun row => rfl, fun h n t fs row hk => processRow_skip h n t fs row hk,
    fun h n t fs row hk => processRow_not_skip h n t fs row hk, ?_⟩
  intro inp prevOut state0 nowIso today ip op res k hrun hk
  rcases run_ok hrun with ⟨t, -, -, hkeys, -⟩
  rw [hkeys] at hk
  exact processRows_keys_nonempty t.headers nowIso today t.rows state0 [] []
    (by intro k' hk'; simp at hk') k hk

/-- The spec's retained-fallback example row: blank vin, vehicle_id AB99. -/
def c6wRow : Row := [("vin", ""), ("vehicle_id", "ab99")]

/-- C6 amended witness: the fallback example is retained with key AB99, and
an all-blank row is skipped. -/
theorem c6_key_resolution_witness :
    keyOf c6wRow = "AB99" ∧
    (∃ fs' r, processRow ["vin", "vehicle_id"] "2026-01-01T00:00:00+00:00" ⟨2026, 1, 1⟩
      [] c6wRow = (fs', some r) ∧ r.key = keyOf c6wRow) ∧
    processRow ["vin", "vehicle_id"] "2026-01-01T00:00:00+00:00" ⟨2026, 1, 1⟩
      [] [("vin", ""), ("vehicle_id", "")] = ([], none) :=
  ⟨by decide,
   c6_key_resolution.2.2.1 ["vin", "vehicle_id"] "2026-01-01T00:00:00+00:00" ⟨2026, 1, 1⟩
     [] c6wRow (by decide),
   c6_key_resolution.2.1 ["vin", "vehicle_id"] "2026-01-01T00:00:00+00:00" ⟨2026, 1, 1⟩
     [] [("vin", ""), ("vehicle_id", "")] (by decide)⟩

/-! ## Claim C7 -/

/-- A row whose only photo column is the indexed column image[1].url. -/
def c7Row : Row := [("vin", "X"), ("image[1].url", "http://a")]

/-- C7 counterexample: with a single indexed photo column image[1].url the
claimed header scan would select its value as the image URL, but the code
reads only the literal column image[0].url and then the photo list, so the
projected image_url is empty. -/
theorem c7_counterexample :
    specImageUrl ["vin", "image[1].url"] c7Row = "http://a" ∧
    ((processRow ["vin", "image[1].url"] "2026-01-01T00:00:00+00:00" ⟨2026, 1, 1⟩
      [] c7Row).2.getD defaultOutRow).image_url = "" := by
  exact ⟨by decide, by decide⟩

/-- C7 (amended): the projected image_url is the stripped value of the
exact column image[0].url when non-blank, else the first entry of the
comma-separated Photo Url List column (and empty when both fail); the code
performs no header scan over the indexed photo family and has no third
fallback column. -/
theorem c7_image_url {headers : List String} {nowIso : String} {today : PyDate}
    {fs fs' : FirstSeen} {row : Row} {r : OutRow}
    (hrun : processRow headers nowIso today fs row = (fs', some r)) :
    r.image_url =
      (if pyStrip (pick row ["image[0].url"]) = ""
       then first_photo_from_list (pick row ["Photo Url List"])
       else pyStrip (pick row ["image[0].url"])) := by
  obtain ⟨-, -, -, -, -, -, -, -, -, himg, -⟩ := processRow_retained hrun
  exact himg

/-- A row exercising both photo tiers for the C7 witness. -/
def c7wRow : Row := [("vin", "Y"), ("image[0].url", " "), ("Photo Url List", " u1 , u2 ")]

/-- The projected row for the C7 witness. -/
def c7wOut : OutRow :=
  ((processRow ["vin", "image[0].url", "Photo Url List"] "2026-01-01T00:00:00+00:00"
    ⟨2026, 1, 1⟩ [] c7wRow).2).getD defaultOutRow

/-- C7 amended witness: with a blank indexed column the photo list's first
entry is used. -/
theorem c7_image_url_witness :
    c7wOut.image_url =
      (if pyStrip (pick c7wRow ["image[0].url"]) = ""
       then first_photo_from_list (pick c7wRow ["Photo Url List"])
       else pyStrip (pick c7wRow ["image[0].url"])) ∧
    c7wOut.image_url = "u1" :=
  ⟨c7_image_url rfl, by decide⟩

/-! ## Claim C8 -/

theorem emitVal_raw {headers : List String} {row : Row} {r : OutRow}
    (hraw : r.raw = buildRaw headers row) {h : String} (hmem : h ∈ headers) :
    emitVal r h = CellVal.s ((rowGet row h).getD "") := by
  unfold emitVal
  rw [hraw]
  unfold buildRaw
  rw [alookup_map_self, if_pos hmem]

/-- A row with untrimmed whitespace in a raw cell. -/
def c8Row : Row := [("vin", "V1"), ("note", " x ")]

/-- The projected row for the C8 counterexample. -/
def c8Out : OutRow :=
  ((processRow ["vin", "note"] "2026-01-01T00:00:00+00:00" ⟨2026, 1, 1⟩
    [] c8Row).2).getD defaultOutRow

/-- C8 counterexample: the raw column note with value " x " is emitted
verbatim, not as the trimmed string the claim requires. -/
theorem c8_counterexample :
    emitVal c8Out "note" = CellVal.s " x " ∧
    pyStrip " x " = "x" ∧
    emitVal c8Out "note" ≠ CellVal.s (pyStrip " x ") := by
  exact ⟨by decide, by decide, by decide⟩

/-- C8 (amended): every original source column is appended after the
computed columns in the source's original header order, with each raw
value emitted verbatim (not trimmed), and the metadata persists the full
column list. -/
theorem c8_raw_columns_preserved :
    (∀ (headers : List String) (nowIso : String) (today : PyDate)
      (fs fs' : FirstSeen) (row : Row) (r : OutRow),
      processRow headers nowIso today fs row = (fs', some r) →
      ∀ h ∈ headers, emitVal r h = CellVal.s ((rowGet row h).getD "")) ∧
    (∀ (inp prevOut : Option CSVFile) (state0 : FirstSeen) (nowIso : String)
      (today : PyDate) (ip op : String) (res : RunResult) (t : CSVFile),
      inp = some t →
      run inp prevOut state0 nowIso today ip op = Except.ok res →
      res.outFields = COMPUTED_FIELDS ++ t.headers ∧
      res.meta.out_fields = COMPUTED_FIELDS ++ t.headers ∧
      res.meta.raw_headers = t.headers ∧
      res.meta.computed_fields = COMPUTED_FIELDS) := by
  constructor
  · intro headers nowIso today fs fs' row r hrun h hmem
    obtain ⟨-, -, -, -, -, -, -, -, -, -, -, hraw⟩ := processRow_retained hrun
    exact emitVal_raw hraw hmem
  · intro inp prevOut state0 nowIso today ip op res t hinp hrun
    rcases run_ok hrun with ⟨t', ht', -, -, -, hof, hmf, hmr, hmc⟩
    rw [hinp] at ht'
    rw [Option.some.injEq] at ht'
    subst ht'
    exact ⟨hof, hmf, hmr, hmc⟩

/-- C8 amended witness: on a concrete run the raw cell is emitted verbatim
and the metadata carries the full column list. -/
theorem c8_raw_columns_preserved_witness :
    emitVal c8Out "note" = CellVal.s ((rowGet c8Row "note").getD "") ∧
    c2Res.outFields = COMPUTED_FIELDS ++ ["vin"] ∧
    c2Res.meta.out_fields = COMPUTED_FIELDS ++ ["vin"] :=
  ⟨c8_raw_columns_preserved.1 ["vin", "note"] "2026-01-01T00:00:00+00:00" ⟨2026, 1, 1⟩
    [] (processRow ["vin", "note"] "2026-01-01T00:00:00+00:00" ⟨2026, 1, 1⟩ [] c8Row).1
    c8Row c8Out rfl "note" (by decide),
   (c8_raw_columns_preserved.2 (some c2Inp) none [("B2", "TS0")]
     "2026-01-02T00:00:00+00:00" ⟨2026, 1, 2⟩ "i" "o" c2Res c2Inp rfl rfl).1,
   (c8_raw_columns_preserved.2 (some c2Inp) none [("B2", "TS0")]
     "2026-01-02T00:00:00+00:00" ⟨2026, 1, 2⟩ "i" "o" c2Res c2Inp rfl rfl).2.1⟩

/-! ## Claim C9 -/

/-- C9: for every retained record, age_days_since_first_seen equals
max(0, today minus the parsed first-seen date) and is never negative; an
unparsable stored timestamp falls back to today, giving age zero rather
than an error; a parsable feed Age value is preferred for age_days while
age_days_since_first_seen is still emitted separately; without one,
age_days equals age_days_since_first_seen. -/
theorem c9_age_computation {headers : List String} {nowIso : String} {today : PyDate}
    {fs fs' : FirstSeen} {row : Row} {r : OutRow}
    (hrun : processRow headers nowIso today fs row = (fs', some r)) :
    r.age_days_since_first_seen =
      max 0 (toDays today - toDays (parse_first_seen_date r.first_seen_utc today)) ∧
    0 ≤ r.age_days_since_first_seen ∧
    (fromisoformatDate (replaceZ r.first_seen_utc.data) = none →
      r.age_days_since_first_seen = 0) ∧
    (∀ n, to_int (pick row ["Age"]) = some n → r.age_days = n) ∧
    (to_int (pick row ["Age"]) = none →
      r.age_days = r.age_days_since_first_seen) := by
  obtain ⟨-, -, -, -, hage, hdays, -⟩ := processRow_retained hrun
  refine ⟨hage, ?_, ?_, ?_, ?_⟩
  · rw [hage]
    exact le_max_left 0 _
  · intro hfail
    rw [hage]
    unfold parse_first_seen_date
    rw [hfail]
    simp
  · intro n hn
    rw [hdays, hn]
    rfl
  · intro hn
    rw [hdays, hn]
    rfl

/-- A row with a feed age, keyed to an unparsable stored timestamp. -/
def c9Row : Row := [("vin", "K9"), ("Age", "5")]

/-- The projected row for the C9 witness. -/
def c9Out : OutRow :=
  ((processRow ["vin", "Age"] "2026-01-01T00:00:00+00:00" ⟨2026, 1, 1⟩
    [("K9", "garbage")] c9Row).2).getD defaultOutRow

/-- C9 witness: the age contract instantiated on a concrete row whose
stored timestamp is unparsable and whose feed Age is 5. -/
theorem c9_age_computation_witness :
    (c9Out.age_days_since_first_seen =
      max 0 (toDays ⟨2026, 1, 1⟩ -
        toDays (parse_first_seen_date c9Out.first_seen_utc ⟨2026, 1, 1⟩)) ∧
     0 ≤ c9Out.age_days_since_first_seen ∧
     (fromisoformatDate (replaceZ c9Out.first_seen_utc.data) = none →
       c9Out.age_days_since_first_seen = 0) ∧
     (∀ n, to_int (pick c9Row ["Age"]) = some n → c9Out.age_days = n) ∧
     (to_int (pick c9Row ["Age"]) = none →
       c9Out.age_days = c9Out.age_days_since_first_seen)) ∧
    c9Out.age_days = 5 ∧ c9Out.age_days_since_first_seen = 0 :=
  ⟨c9_age_computation rfl, by decide, by decide⟩

end InvHist
